import Mathlib

/-!
Shallow embedding of the suzi-famlet repository for specification checking.

The repository has three pieces relevant to the claims:
* `MultiSigService` (a Solana multisig orchestrator, `src/unnamed/part_000`):
  a thin wrapper that builds instructions for the external `@sqds/multisig`
  SDK.  The SDK's address-derivation functions and instruction builders are
  external collaborators; we model the derivation functions as an abstract
  record of pure functions (`SquadsSdk`) and each instruction builder's
  output as the record of arguments the service passes to it, since every
  claim is about the argument values the service supplies.  Network reads
  (`await connection...` / `await ...fromAccountAddress`) are modelled by an
  explicit record of per-call responses (`ConnResponses`), each of which may
  fail (`Except RpcError`); the operations log each read they perform so
  that "exactly one read, no retry" is statable.
* `MessageManager.splitMessage` (`src/unnamed/part_002`): a pure string
  chunking function, translated directly.
* `TokenProvider.fetchHolderList` (`src/src/providers/tokens.ts`): a
  pagination loop over an RPC oracle, translated with the page counter and
  the owner→balance map made explicit.
-/

/-- A Solana public key, modelled abstractly as a natural number tag. -/
structure PubKey where
  key : Nat
deriving DecidableEq, Repr

/-- A keypair; only the public half is ever inspected by this code. -/
structure Keypair where
  publicKey : PubKey
deriving DecidableEq, Repr

/-- An error from an RPC round trip (network/transport failure). -/
structure RpcError where
  msg : Nat
deriving DecidableEq, Repr

/-- A recent blockhash, as returned by `connection.getLatestBlockhash()`. -/
structure Blockhash where
  hash : Nat
deriving DecidableEq, Repr

/-- The on-chain program-config account (`multisig.accounts.ProgramConfig`):
the service only reads its `treasury` field. -/
structure ProgramConfig where
  treasury : PubKey
deriving DecidableEq, Repr

/-- The on-chain multisig account (`multisig.accounts.Multisig`): the service
only reads its `transactionIndex` field. -/
structure MultisigAccount where
  transactionIndex : Nat
deriving DecidableEq, Repr

/-- A caller-supplied instruction (not inspected by the orchestrator). -/
structure TransactionInstruction where
  tag : Nat
deriving DecidableEq, Repr

/-- The external `@sqds/multisig` SDK's deterministic address derivations
(`getMultisigPda`, `getVaultPda`, `getSpendingLimitPda`), abstracted as pure
functions: the claims only depend on which arguments the service passes. -/
structure SquadsSdk where
  getMultisigPda : PubKey → PubKey
  getVaultPda : PubKey → Nat → PubKey
  getSpendingLimitPda : PubKey → PubKey → PubKey

/-- Permission sets of the external SDK; the service only ever uses
`Permissions.all()`. -/
inductive Permission where
  | all
deriving DecidableEq, Repr

/-- A member entry passed to `multisigCreateV2`. -/
structure Member where
  key : PubKey
  permissions : Permission
deriving DecidableEq, Repr

/-- Spending-limit period unit; the service only ever uses `Period.Day`. -/
inductive Period where
  | day
  | week
  | month
deriving DecidableEq, Repr

/-- The arguments the service passes to
`multisig.instructions.multisigCreateV2`; the built instruction is a pure
function of these, so we take the argument record as the instruction. -/
structure MultisigCreateV2Args where
  createKey : PubKey
  creator : PubKey
  multisigPda : PubKey
  configAuthority : PubKey
  timeLock : Nat
  members : List Member
  threshold : Nat
  treasury : Option PubKey
  rentCollector : PubKey
deriving DecidableEq, Repr

/-- The arguments passed to `multisig.instructions.multisigAddSpendingLimit`. -/
structure AddSpendingLimitArgs where
  multisigPda : PubKey
  configAuthority : PubKey
  spendingLimit : PubKey
  rentPayer : PubKey
  createKey : PubKey
  vaultIndex : Nat
  mint : PubKey
  amount : Nat
  period : Period
  members : List PubKey
  destinations : List PubKey
deriving DecidableEq, Repr

/-- The `TransactionMessage` built at the start of `sendTx`. -/
structure TransactionMessage where
  payerKey : PubKey
  recentBlockhash : Blockhash
  instructions : List TransactionInstruction
deriving DecidableEq, Repr

/-- The arguments passed to `multisig.instructions.vaultTransactionCreate`. -/
structure VaultTransactionCreateArgs where
  multisigPda : PubKey
  transactionIndex : Nat
  creator : PubKey
  vaultIndex : Nat
  ephemeralSigners : Nat
  transactionMessage : TransactionMessage
deriving DecidableEq, Repr

/-- The arguments passed to `multisig.instructions.proposalCreate`. -/
structure ProposalCreateArgs where
  multisigPda : PubKey
  transactionIndex : Nat
  creator : PubKey
deriving DecidableEq, Repr

/-- The arguments passed to `multisig.instructions.proposalApprove`. -/
structure ProposalApproveArgs where
  multisigPda : PubKey
  member : PubKey
  transactionIndex : Nat
deriving DecidableEq, Repr

/-- The arguments passed to `multisig.instructions.vaultTransactionExecute`. -/
structure VaultTransactionExecuteArgs where
  multisigPda : PubKey
  transactionIndex : Nat
  member : PubKey
deriving DecidableEq, Repr

/-- The private fields of the `MultiSigService` class. `connection` is not a
field here: the per-call responses it yields are passed explicitly to each
operation (`ConnResponses`). -/
structure MultiSigService where
  feePayer : Keypair
  createKey : Keypair
  multisigPda : PubKey
  configTreasury : Option PubKey
  agent : PubKey
  vaultPDA : Option PubKey
deriving DecidableEq, Repr

/-- The kind of on-chain read an operation performs, for the read log. -/
inductive RpcRead where
  | programConfig
  | latestBlockhash
  | multisigAccount
deriving DecidableEq, Repr

/-- The responses the external ledger would give to this call's reads.
Each operation consumes at most one response per kind. -/
structure ConnResponses where
  programConfig : Except RpcError ProgramConfig
  latestBlockhash : Except RpcError Blockhash
  multisigAccount : Except RpcError MultisigAccount

namespace MultiSigService

/-- The class constructor.  `Keypair.generate()` (used when `create_key` is
absent) is nondeterministic, so the freshly generated keypair is an explicit
parameter `generated`. -/
def make (sdk : SquadsSdk) (feePayer : Keypair) (agent : PubKey)
    (create_key : Option Keypair) (generated : Keypair) : MultiSigService :=
  let createKey := create_key.getD generated
  let pda := sdk.getMultisigPda createKey.publicKey
  let vaultPDA := sdk.getVaultPda pda 0
  { feePayer := feePayer
    createKey := createKey
    multisigPda := pda
    configTreasury := none
    agent := agent
    vaultPDA := some vaultPDA }

/-- Result of `createMultiSig`: the built instruction and the create key. -/
structure CreateMultiSigResult where
  ix : MultisigCreateV2Args
  create_key : Keypair
deriving DecidableEq, Repr

/-- Method `createMultiSig()`: fetches the program config (one read), stores its
treasury in `configTreasury`, and builds the `multisigCreateV2` instruction.
A failed fetch rejects the whole call (no catch, no retry); the read log
records the reads performed in order. -/
def createMultiSig (s : MultiSigService) (conn : ConnResponses) :
    Except RpcError CreateMultiSigResult × MultiSigService × List RpcRead :=
  match conn.programConfig with
  | .error e => (.error e, s, [.programConfig])
  | .ok programConfig =>
    let s' := { s with configTreasury := some programConfig.treasury }
    let ix : MultisigCreateV2Args :=
      { createKey := s'.createKey.publicKey
        creator := s'.feePayer.publicKey
        multisigPda := s'.multisigPda
        configAuthority := s'.feePayer.publicKey
        timeLock := 0
        members :=
          [ { key := s'.feePayer.publicKey, permissions := .all }
          , { key := s'.agent, permissions := .all } ]
        threshold := 1
        treasury := s'.configTreasury
        rentCollector := s'.feePayer.publicKey }
    (.ok { ix := ix, create_key := s'.createKey }, s', [.programConfig])

/-- Result of `addSpendingLimit`: the instruction and the fresh create key. -/
structure AddSpendingLimitResult where
  ix : AddSpendingLimitArgs
  create_key : PubKey
deriving DecidableEq, Repr

/-- The hardcoded USDC mint used by `addSpendingLimit`
(`EPjFWdd5AufqSSqeM2qN1xzybapC8G4wEGGkZwyTDt1v`). -/
def usdcMint : PubKey := ⟨1000⟩

/-- Method `addSpendingLimit()`: generates a fresh random create key (modelled as
the explicit parameter `generatedKey`), derives the spending-limit PDA from
it, and builds the `multisigAddSpendingLimit` instruction.  No network read,
no field mutation. -/
def addSpendingLimit (sdk : SquadsSdk) (s : MultiSigService)
    (generatedKey : PubKey) :
    AddSpendingLimitResult × MultiSigService :=
  let spendingLimitCreateKey := generatedKey
  let spendingLimitPda :=
    sdk.getSpendingLimitPda s.multisigPda spendingLimitCreateKey
  let ix : AddSpendingLimitArgs :=
    { multisigPda := s.multisigPda
      configAuthority := s.feePayer.publicKey
      spendingLimit := spendingLimitPda
      rentPayer := s.feePayer.publicKey
      createKey := spendingLimitCreateKey
      vaultIndex := 0
      mint := usdcMint
      amount := 1000000
      period := .day
      members := [s.agent]
      destinations := [] }
  ({ ix := ix, create_key := spendingLimitCreateKey }, s)

/-- Result of `sendTx`: the three built instructions. -/
structure SendTxResult where
  transfer_ix : VaultTransactionCreateArgs
  create_ix : ProposalCreateArgs
  approve_ix : ProposalApproveArgs
deriving DecidableEq, Repr

/-- Method `sendTx(ix)`: fetches the latest blockhash (for the transaction
message), then fetches the multisig account (one read of the transaction
index), computes `newTransactionIndex = currentTransactionIndex + 1`, and
builds the vault-transaction-create, proposal-create and proposal-approve
instructions, all tagged with `newTransactionIndex`.  Either failed fetch
rejects the whole call; the read log records the reads in order. -/
def sendTx (s : MultiSigService) (conn : ConnResponses)
    (ix : List TransactionInstruction) :
    Except RpcError SendTxResult × MultiSigService × List RpcRead :=
  match conn.latestBlockhash with
  | .error e => (.error e, s, [.latestBlockhash])
  | .ok bh =>
    let tx_message : TransactionMessage :=
      { payerKey := s.agent, recentBlockhash := bh, instructions := ix }
    match conn.multisigAccount with
    | .error e => (.error e, s, [.latestBlockhash, .multisigAccount])
    | .ok multisigInfo =>
      let currentTransactionIndex := multisigInfo.transactionIndex
      let newTransactionIndex := currentTransactionIndex + 1
      let ix_transfer : VaultTransactionCreateArgs :=
        { multisigPda := s.multisigPda
          transactionIndex := newTransactionIndex
          creator := s.agent
          vaultIndex := 0
          ephemeralSigners := 0
          transactionMessage := tx_message }
      let ix_create : ProposalCreateArgs :=
        { multisigPda := s.multisigPda
          transactionIndex := newTransactionIndex
          creator := s.agent }
      let ix_approve : ProposalApproveArgs :=
        { multisigPda := s.multisigPda
          member := s.agent
          transactionIndex := newTransactionIndex }
      (.ok { transfer_ix := ix_transfer, create_ix := ix_create,
             approve_ix := ix_approve },
       s, [.latestBlockhash, .multisigAccount])

/-- Method `executeTx()`: builds the `vaultTransactionExecute` instruction with the
hardcoded transaction index `BigInt(1)`.  No field mutation. -/
def executeTx (s : MultiSigService) :
    VaultTransactionExecuteArgs × MultiSigService :=
  ({ multisigPda := s.multisigPda
     transactionIndex := 1
     member := s.agent }, s)

end MultiSigService

/-! Embedding of `MessageManager.splitMessage` (`src/unnamed/part_002`). -/

namespace MessageManager

/-- Constant `MAX_MESSAGE_LENGTH = 4096` of the message manager. -/
def MAX_MESSAGE_LENGTH : Nat := 4096

/-- Translation of `text.split("\n")` with JavaScript semantics for a one-character
separator; strings are modelled as character lists (`.length` is the
character count). -/
def splitLines (text : List Char) : List (List Char) :=
  match text with
  | [] => [[]]
  | c :: rest =>
    if c = '\n' then [] :: splitLines rest
    else
      match splitLines rest with
      | [] => [[c]]
      | l :: ls => (c :: l) :: ls

/-- One iteration of the `for (const line of lines)` body of `splitMessage`,
acting on the pair `(chunks, currentChunk)`.  JavaScript's
`if (currentChunk)` is string truthiness, i.e. non-emptiness. -/
def splitStep (acc : List (List Char) × List Char) (line : List Char) :
    List (List Char) × List Char :=
  let chunks := acc.1
  let currentChunk := acc.2
  if currentChunk.length + line.length + 1 ≤ MAX_MESSAGE_LENGTH then
    (chunks,
      currentChunk ++ (if currentChunk ≠ [] then ['\n'] else []) ++ line)
  else
    ((if currentChunk ≠ [] then chunks ++ [currentChunk] else chunks), line)

/-- Method `splitMessage(text)`: splits `text` on `"\n"`, greedily packs lines into
chunks of at most `MAX_MESSAGE_LENGTH` characters (re-joining with `"\n"`),
and pushes the final non-empty chunk. -/
def splitMessage (text : List Char) : List (List Char) :=
  let lines := splitLines text
  let acc := lines.foldl splitStep ([], [])
  if acc.2 ≠ [] then acc.1 ++ [acc.2] else acc.1

end MessageManager

/-! Embedding of `TokenProvider.fetchHolderList` (`src/src/providers/tokens.ts`). -/

namespace TokenProvider

/-- One token account from a `getTokenAccounts` RPC response: the fields the
loop reads (`owner`, `amount`; amounts are modelled as rationals since the
code sums `parseFloat` results). -/
structure TokenAccount where
  owner : String
  amount : Rat
deriving DecidableEq, Repr

/-- The RPC oracle: the token-account list (with trailing cursor) the Helius
endpoint would return for each fetch.  Pages are fetched in order starting
from page 1, so indexing responses by the page number is the general model
of "every sequence of API responses"; `none` stands for a missing or empty
`data.result.token_accounts` (any of the four falsy checks). -/
def ResponseSeq : Type := Nat → Option (List TokenAccount)

/-- Translation of `allHoldersMap.set(owner, ...)`: add `balance` to the owner's entry, or
insert a new entry at the end (JavaScript `Map` preserves insertion order). -/
def upsert (m : List (String × Rat)) (owner : String) (balance : Rat) :
    List (String × Rat) :=
  match m with
  | [] => [(owner, balance)]
  | (o, b) :: rest =>
    if o = owner then (o, b + balance) :: rest
    else (o, b) :: upsert rest owner balance

/-- The `while (true)` pagination loop of `fetchHolderList`, starting at
`page`, threading the owner→balance map; returns the final map together with
the number of page fetches performed.  The loop breaks before fetching when
`page > 100`, and breaks after a fetch that yields no token accounts;
otherwise it folds the accounts into the map and advances to the next
page. -/
def fetchPages (resp : ResponseSeq) (page : Nat)
    (m : List (String × Rat)) : List (String × Rat) × Nat :=
  if page > 100 then (m, 0)
  else
    match resp page with
    | none => (m, 1)
    | some accounts =>
      if accounts = [] then (m, 1)
      else
        let m' := accounts.foldl (fun acc a => upsert acc a.owner a.amount) m
        let r := fetchPages resp (page + 1) m'
        (r.1, r.2 + 1)
termination_by 101 - page

/-- One entry of the returned holder list. -/
structure HolderData where
  address : String
  balance : Rat
deriving DecidableEq, Repr

/-- Method `fetchHolderList()` on a cache miss: run the pagination loop from page 1
with an empty map and convert `Array.from(allHoldersMap.entries())` into the
holder list.  Returns the list together with the number of page fetches. -/
def fetchHolderList (resp : ResponseSeq) : List HolderData × Nat :=
  let r := fetchPages resp 1 []
  (r.1.map (fun e => { address := e.1, balance := e.2 }), r.2)

end TokenProvider

/-! Concrete instances used by the witness theorems. -/

/-- A concrete SDK whose derivations are injective, for witnesses. -/
def exSdk : SquadsSdk where
  getMultisigPda := fun k => ⟨2 * k.key + 1⟩
  getVaultPda := fun pda i => ⟨3 * pda.key + i + 2⟩
  getSpendingLimitPda := fun pda k => ⟨5 * pda.key + 7 * k.key + 3⟩

/-- A concrete fee payer. -/
def exFeePayer : Keypair := ⟨⟨10⟩⟩

/-- A concrete agent. -/
def exAgent : PubKey := ⟨20⟩

/-- A concrete create key. -/
def exCreateKey : Keypair := ⟨⟨30⟩⟩

/-- A concrete service instance. -/
def exService : MultiSigService :=
  MultiSigService.make exSdk exFeePayer exAgent (some exCreateKey) ⟨⟨40⟩⟩

/-- Connection responses where every read succeeds. -/
def exConnOk : ConnResponses where
  programConfig := .ok ⟨⟨50⟩⟩
  latestBlockhash := .ok ⟨60⟩
  multisigAccount := .ok ⟨5⟩

/-- Connection responses where the account-info reads fail. -/
def exConnErr : ConnResponses where
  programConfig := .error ⟨70⟩
  latestBlockhash := .ok ⟨61⟩
  multisigAccount := .error ⟨71⟩

/-! Theorems for the claims. -/

/-- C1: for every multisig account state read at call time, `sendTx`
computes `nextIndex = currentIndex + 1` from the transaction index it
fetched, and all three instructions it returns (vault-transaction create,
proposal create, proposal approve) are tagged with that same `nextIndex`. -/
theorem sendTx_tags_all_with_nextIndex (s : MultiSigService)
    (conn : ConnResponses) (ix : List TransactionInstruction)
    (bh : Blockhash) (info : MultisigAccount)
    (hbh : conn.latestBlockhash = .ok bh)
    (hms : conn.multisigAccount = .ok info) :
    ∃ res : MultiSigService.SendTxResult,
      (MultiSigService.sendTx s conn ix).1 = .ok res ∧
      res.transfer_ix.transactionIndex = info.transactionIndex + 1 ∧
      res.create_ix.transactionIndex = info.transactionIndex + 1 ∧
      res.approve_ix.transactionIndex = info.transactionIndex + 1 := by
  simp only [MultiSigService.sendTx, hbh, hms]
  exact ⟨_, rfl, rfl, rfl, rfl⟩

/-- Witness for C1 at a concrete state and a concrete successful read. -/
theorem sendTx_tags_all_with_nextIndex_witness :
    exConnOk.latestBlockhash = .ok ⟨60⟩ ∧
    exConnOk.multisigAccount = .ok ⟨5⟩ ∧
    ∃ res : MultiSigService.SendTxResult,
      (MultiSigService.sendTx exService exConnOk []).1 = .ok res ∧
      res.transfer_ix.transactionIndex = (5 : Nat) + 1 ∧
      res.create_ix.transactionIndex = (5 : Nat) + 1 ∧
      res.approve_ix.transactionIndex = (5 : Nat) + 1 :=
  ⟨rfl, rfl,
    sendTx_tags_all_with_nextIndex exService exConnOk [] ⟨60⟩ ⟨5⟩ rfl rfl⟩

/-- C2: `executeTx` builds its execute-vault-transaction instruction with
the hardcoded transaction index `1`, whatever the service state. -/
theorem executeTx_index_hardcoded_one (s : MultiSigService) :
    (MultiSigService.executeTx s).1.transactionIndex = 1 := rfl

/-- C3: two constructions with the same create key derive the same multisig
address, and that address is a function of the create key alone (it is
`getMultisigPda` of the create key's public key, independent of the fee
payer, agent, or any generated keypair). -/
theorem make_multisigPda_determined_by_createKey (sdk : SquadsSdk)
    (fp fp' : Keypair) (ag ag' : PubKey) (ck g g' : Keypair) :
    (MultiSigService.make sdk fp ag (some ck) g).multisigPda =
      (MultiSigService.make sdk fp' ag' (some ck) g').multisigPda ∧
    (MultiSigService.make sdk fp ag (some ck) g).multisigPda =
      sdk.getMultisigPda ck.publicKey :=
  ⟨rfl, rfl⟩

/-- C4: `addSpendingLimit` derives the spending-limit record from a fresh
random create key each call, so (the derivation being injective in the
create key) two calls on the same service instance with distinct generated
keys return two distinct spending-limit addresses and distinct create keys;
the call also leaves the service state untouched, so the second call runs
against the same multisig. -/
theorem addSpendingLimit_fresh_records (sdk : SquadsSdk)
    (s : MultiSigService) (k k' : PubKey)
    (hinj : Function.Injective (sdk.getSpendingLimitPda s.multisigPda))
    (hne : k ≠ k') :
    (MultiSigService.addSpendingLimit sdk s k).1.ix.spendingLimit ≠
      (MultiSigService.addSpendingLimit sdk s k').1.ix.spendingLimit ∧
    (MultiSigService.addSpendingLimit sdk s k).1.create_key ≠
      (MultiSigService.addSpendingLimit sdk s k').1.create_key ∧
    (MultiSigService.addSpendingLimit sdk s k).2 = s := by
  refine ⟨fun h => hne (hinj h), fun h => hne h, rfl⟩

/-- Witness for C4: distinct fresh keys under the concrete injective SDK. -/
theorem addSpendingLimit_fresh_records_witness :
    (⟨1⟩ : PubKey) ≠ ⟨2⟩ ∧
    ((MultiSigService.addSpendingLimit exSdk exService ⟨1⟩).1.ix.spendingLimit ≠
      (MultiSigService.addSpendingLimit exSdk exService ⟨2⟩).1.ix.spendingLimit ∧
    (MultiSigService.addSpendingLimit exSdk exService ⟨1⟩).1.create_key ≠
      (MultiSigService.addSpendingLimit exSdk exService ⟨2⟩).1.create_key ∧
    (MultiSigService.addSpendingLimit exSdk exService ⟨1⟩).2 = exService) :=
  ⟨by decide,
    addSpendingLimit_fresh_records exSdk exService ⟨1⟩ ⟨2⟩
      (by
        intro a b h
        have hk : 5 * exService.multisigPda.key + 7 * a.key + 3 =
            5 * exService.multisigPda.key + 7 * b.key + 3 :=
          congrArg PubKey.key h
        have : a.key = b.key := by omega
        cases a; cases b; simpa using this)
      (by decide)⟩

/-- C5: the instruction returned by `createMultiSig` lists exactly the fee
payer and the agent as members, each with the full permission set, sets the
threshold to `1`, and uses the treasury freshly read from the program-config
account on this call — whatever value `configTreasury` held before. -/
theorem createMultiSig_members_threshold_treasury (s : MultiSigService)
    (conn : ConnResponses) (cfg : ProgramConfig)
    (hcfg : conn.programConfig = .ok cfg) :
    ∃ res : MultiSigService.CreateMultiSigResult,
      (MultiSigService.createMultiSig s conn).1 = .ok res ∧
      res.ix.members =
        [ { key := s.feePayer.publicKey, permissions := .all }
        , { key := s.agent, permissions := .all } ] ∧
      res.ix.threshold = 1 ∧
      res.ix.treasury = some cfg.treasury := by
  simp only [MultiSigService.createMultiSig, hcfg]
  exact ⟨_, rfl, rfl, rfl, rfl⟩

/-- Witness for C5: a concrete service whose `configTreasury` starts stale,
and a concrete successful config read. -/
theorem createMultiSig_members_threshold_treasury_witness :
    exConnOk.programConfig = .ok ⟨⟨50⟩⟩ ∧
    ∃ res : MultiSigService.CreateMultiSigResult,
      (MultiSigService.createMultiSig
        { exService with configTreasury := some ⟨99⟩ } exConnOk).1 = .ok res ∧
      res.ix.members =
        [ { key := exFeePayer.publicKey, permissions := .all }
        , { key := exAgent, permissions := .all } ] ∧
      res.ix.threshold = 1 ∧
      res.ix.treasury = some ⟨50⟩ :=
  ⟨rfl, createMultiSig_members_threshold_treasury
    { exService with configTreasury := some ⟨99⟩ } exConnOk ⟨⟨50⟩⟩ rfl⟩

/-- C6: each state-dependent operation performs exactly one read of the
state it depends on, with no retry: `createMultiSig` logs exactly one
program-config read on every call, `sendTx` logs at most one multisig
account read, and exactly one whenever execution reaches it (i.e. the
blockhash fetch succeeded); and a failed read is propagated unchanged to
the caller as a rejection: a failing program-config read makes
`createMultiSig` return exactly that error, and a failing multisig-account
read makes `sendTx` return exactly that error. -/
theorem single_read_no_retry_error_propagation (s : MultiSigService)
    (connAny connOk connE connE' : ConnResponses)
    (ix : List TransactionInstruction) (e e' : RpcError) (bh bh' : Blockhash)
    (hok : connOk.latestBlockhash = .ok bh)
    (hE : connE.programConfig = .error e)
    (hE1 : connE'.latestBlockhash = .ok bh')
    (hE2 : connE'.multisigAccount = .error e') :
    (MultiSigService.createMultiSig s connAny).2.2.count .programConfig = 1 ∧
    (MultiSigService.sendTx s connAny ix).2.2.count .multisigAccount ≤ 1 ∧
    (MultiSigService.sendTx s connOk ix).2.2.count .multisigAccount = 1 ∧
    (MultiSigService.createMultiSig s connE).1 = .error e ∧
    (MultiSigService.sendTx s connE' ix).1 = .error e' := by
  refine ⟨?_, ?_, ?_, ?_, ?_⟩
  · unfold MultiSigService.createMultiSig
    cases connAny.programConfig <;> simp [List.count]
  · unfold MultiSigService.sendTx
    cases connAny.latestBlockhash <;>
      [skip; cases connAny.multisigAccount] <;> simp [List.count]
  · unfold MultiSigService.sendTx
    rw [hok]
    cases connOk.multisigAccount <;> simp [List.count]
  · unfold MultiSigService.createMultiSig
    rw [hE]
  · unfold MultiSigService.sendTx
    rw [hE1, hE2]

/-- Witness for C6: concrete succeeding and failing connections. -/
theorem single_read_no_retry_error_propagation_witness :
    (exConnOk.latestBlockhash = .ok ⟨60⟩ ∧
     exConnErr.programConfig = .error ⟨70⟩ ∧
     exConnErr.latestBlockhash = .ok ⟨61⟩ ∧
     exConnErr.multisigAccount = .error ⟨71⟩) ∧
    ((MultiSigService.createMultiSig exService exConnOk).2.2.count
        .programConfig = 1 ∧
     (MultiSigService.sendTx exService exConnOk []).2.2.count
        .multisigAccount ≤ 1 ∧
     (MultiSigService.sendTx exService exConnOk []).2.2.count
        .multisigAccount = 1 ∧
     (MultiSigService.createMultiSig exService exConnErr).1 = .error ⟨70⟩ ∧
     (MultiSigService.sendTx exService exConnErr []).1 = .error ⟨71⟩) :=
  ⟨⟨rfl, rfl, rfl, rfl⟩,
    single_read_no_retry_error_propagation exService exConnOk exConnOk
      exConnErr exConnErr [] ⟨70⟩ ⟨71⟩ ⟨60⟩ ⟨61⟩ rfl rfl rfl rfl⟩

/-- C7: every operation targets vault index `0`: the constructor derives the
vault address with index `0`, `addSpendingLimit` builds its instruction with
`vaultIndex = 0`, and `sendTx` builds the vault-transaction-create
instruction with `vaultIndex = 0`, for every input. -/
theorem all_operations_use_vault_index_zero (sdk : SquadsSdk)
    (fp : Keypair) (ag : PubKey) (ck : Option Keypair) (g : Keypair)
    (s : MultiSigService) (k : PubKey) (conn : ConnResponses)
    (ix : List TransactionInstruction) (bh : Blockhash)
    (info : MultisigAccount)
    (hbh : conn.latestBlockhash = .ok bh)
    (hms : conn.multisigAccount = .ok info) :
    (MultiSigService.make sdk fp ag ck g).vaultPDA =
      some (sdk.getVaultPda
        (MultiSigService.make sdk fp ag ck g).multisigPda 0) ∧
    (MultiSigService.addSpendingLimit sdk s k).1.ix.vaultIndex = 0 ∧
    ∃ res : MultiSigService.SendTxResult,
      (MultiSigService.sendTx s conn ix).1 = .ok res ∧
      res.transfer_ix.vaultIndex = 0 := by
  refine ⟨rfl, rfl, ?_⟩
  simp only [MultiSigService.sendTx, hbh, hms]
  exact ⟨_, rfl, rfl⟩

/-- Witness for C7 at concrete inputs. -/
theorem all_operations_use_vault_index_zero_witness :
    (exConnOk.latestBlockhash = .ok ⟨60⟩ ∧
     exConnOk.multisigAccount = .ok ⟨5⟩) ∧
    ((MultiSigService.make exSdk exFeePayer exAgent (some exCreateKey)
        ⟨⟨40⟩⟩).vaultPDA =
      some (exSdk.getVaultPda
        (MultiSigService.make exSdk exFeePayer exAgent (some exCreateKey)
          ⟨⟨40⟩⟩).multisigPda 0) ∧
     (MultiSigService.addSpendingLimit exSdk exService ⟨1⟩).1.ix.vaultIndex
        = 0 ∧
     ∃ res : MultiSigService.SendTxResult,
       (MultiSigService.sendTx exService exConnOk []).1 = .ok res ∧
       res.transfer_ix.vaultIndex = 0) :=
  ⟨⟨rfl, rfl⟩,
    all_operations_use_vault_index_zero exSdk exFeePayer exAgent
      (some exCreateKey) ⟨⟨40⟩⟩ exService ⟨1⟩ exConnOk [] ⟨60⟩ ⟨5⟩ rfl rfl⟩

/-- C8: the orchestrator holds no mutable authoritative state: every
operation leaves the multisig address, vault address, create key, agent and
fee payer at their construction-time values (`addSpendingLimit`, `sendTx`
and `executeTx` leave the whole record untouched; `createMultiSig` only
updates the cached treasury), and the transaction index used by `sendTx` is
re-read from the ledger on each call: two calls on the same state, given
different reads, tag their proposals from their own fresh reads. -/
theorem no_mutable_authoritative_state (sdk : SquadsSdk)
    (s : MultiSigService) (conn conn₁ conn₂ : ConnResponses) (k : PubKey)
    (ix ix₁ ix₂ : List TransactionInstruction) (bh₁ bh₂ : Blockhash)
    (i₁ i₂ : MultisigAccount)
    (h₁ : conn₁.latestBlockhash = .ok bh₁)
    (h₂ : conn₁.multisigAccount = .ok i₁)
    (h₃ : conn₂.latestBlockhash = .ok bh₂)
    (h₄ : conn₂.multisigAccount = .ok i₂) :
    ((MultiSigService.createMultiSig s conn).2.1.feePayer = s.feePayer ∧
     (MultiSigService.createMultiSig s conn).2.1.createKey = s.createKey ∧
     (MultiSigService.createMultiSig s conn).2.1.multisigPda = s.multisigPda ∧
     (MultiSigService.createMultiSig s conn).2.1.agent = s.agent ∧
     (MultiSigService.createMultiSig s conn).2.1.vaultPDA = s.vaultPDA) ∧
    (MultiSigService.addSpendingLimit sdk s k).2 = s ∧
    (MultiSigService.sendTx s conn ix).2.1 = s ∧
    (MultiSigService.executeTx s).2 = s ∧
    (∃ r₁ : MultiSigService.SendTxResult,
      (MultiSigService.sendTx s conn₁ ix₁).1 = .ok r₁ ∧
      r₁.create_ix.transactionIndex = i₁.transactionIndex + 1) ∧
    (∃ r₂ : MultiSigService.SendTxResult,
      (MultiSigService.sendTx s conn₂ ix₂).1 = .ok r₂ ∧
      r₂.create_ix.transactionIndex = i₂.transactionIndex + 1) := by
  refine ⟨?_, rfl, ?_, rfl, ?_, ?_⟩
  · unfold MultiSigService.createMultiSig
    cases conn.programConfig <;> exact ⟨rfl, rfl, rfl, rfl, rfl⟩
  · unfold MultiSigService.sendTx
    cases conn.latestBlockhash <;>
      [skip; cases conn.multisigAccount] <;> rfl
  · simp only [MultiSigService.sendTx, h₁, h₂]
    exact ⟨_, rfl, rfl⟩
  · simp only [MultiSigService.sendTx, h₃, h₄]
    exact ⟨_, rfl, rfl⟩

/-- Witness for C8: two concrete connections reading different indices. -/
theorem no_mutable_authoritative_state_witness :
    (exConnOk.latestBlockhash = .ok ⟨60⟩ ∧
     exConnOk.multisigAccount = .ok ⟨5⟩ ∧
     exConnErr.latestBlockhash = .ok ⟨61⟩ ∧
     ({ exConnErr with multisigAccount := .ok ⟨8⟩ } :
        ConnResponses).multisigAccount = .ok ⟨8⟩) ∧
    (((MultiSigService.createMultiSig exService exConnOk).2.1.feePayer =
        exService.feePayer ∧
      (MultiSigService.createMultiSig exService exConnOk).2.1.createKey =
        exService.createKey ∧
      (MultiSigService.createMultiSig exService exConnOk).2.1.multisigPda =
        exService.multisigPda ∧
      (MultiSigService.createMultiSig exService exConnOk).2.1.agent =
        exService.agent ∧
      (MultiSigService.createMultiSig exService exConnOk).2.1.vaultPDA =
        exService.vaultPDA) ∧
     (MultiSigService.addSpendingLimit exSdk exService ⟨1⟩).2 = exService ∧
     (MultiSigService.sendTx exService exConnOk []).2.1 = exService ∧
     (MultiSigService.executeTx exService).2 = exService ∧
     (∃ r₁ : MultiSigService.SendTxResult,
       (MultiSigService.sendTx exService exConnOk []).1 = .ok r₁ ∧
       r₁.create_ix.transactionIndex = (5 : Nat) + 1) ∧
     (∃ r₂ : MultiSigService.SendTxResult,
       (MultiSigService.sendTx exService
         { exConnErr with multisigAccount := .ok ⟨8⟩ } []).1 = .ok r₂ ∧
       r₂.create_ix.transactionIndex = (8 : Nat) + 1)) :=
  ⟨⟨rfl, rfl, rfl, rfl⟩,
    no_mutable_authoritative_state exSdk exService exConnOk exConnOk
      { exConnErr with multisigAccount := .ok ⟨8⟩ } ⟨1⟩ [] [] []
      ⟨60⟩ ⟨61⟩ ⟨5⟩ ⟨8⟩ rfl rfl rfl rfl⟩

/-- Invariant of the chunking fold of `splitMessage`: if all remaining lines
fit in `MAX_MESSAGE_LENGTH`, all already-pushed chunks are short and
non-empty, and the current chunk is short, then after the fold all chunks
are short and non-empty and the final current chunk is short. -/
theorem MessageManager.splitStep_foldl_invariant (lines : List (List Char))
    (chunks : List (List Char)) (cur : List Char)
    (hl : ∀ l ∈ lines, l.length ≤ MAX_MESSAGE_LENGTH)
    (hc : ∀ c ∈ chunks, c.length ≤ MAX_MESSAGE_LENGTH ∧ c ≠ [])
    (hcur : cur.length ≤ MAX_MESSAGE_LENGTH) :
    (∀ c ∈ (lines.foldl splitStep (chunks, cur)).1,
      c.length ≤ MAX_MESSAGE_LENGTH ∧ c ≠ []) ∧
    (lines.foldl splitStep (chunks, cur)).2.length ≤ MAX_MESSAGE_LENGTH := by
  induction lines generalizing chunks cur with
  | nil => exact ⟨hc, hcur⟩
  | cons line rest ih =>
    have hline : line.length ≤ MAX_MESSAGE_LENGTH := hl line (by simp)
    have hrest : ∀ l ∈ rest, l.length ≤ MAX_MESSAGE_LENGTH :=
      fun l hm => hl l (by simp [hm])
    rw [List.foldl_cons]
    unfold splitStep
    by_cases hfit : cur.length + line.length + 1 ≤ MAX_MESSAGE_LENGTH
    · simp only [hfit, if_pos]
      refine ih _ _ hrest hc ?_
      have hsep : (if cur ≠ [] then ['\x0a'] else []).length ≤ 1 := by
        by_cases h : cur = [] <;> simp [h]
      simp only [List.length_append]
      omega
    · simp only [hfit, if_neg, not_false_iff]
      refine ih _ _ hrest ?_ hline
      intro c hcmem
      by_cases hne : cur = []
      · simp only [hne, ne_eq, not_true_eq_false, if_false] at hcmem
        exact hc c hcmem
      · simp only [ne_eq, hne, not_false_iff, if_true] at hcmem
        rcases List.mem_append.1 hcmem with h | h
        · exact hc c h
        · rcases List.mem_singleton.1 h with rfl
          exact ⟨hcur, hne⟩

/-- C9: for every input text whose newline-separated lines each have length
at most `MAX_MESSAGE_LENGTH` (4096), every chunk returned by
`splitMessage` has length at most 4096 and is non-empty. -/
theorem splitMessage_chunks_bounded_nonempty (text : List Char)
    (h : ∀ line ∈ MessageManager.splitLines text,
      line.length ≤ MessageManager.MAX_MESSAGE_LENGTH) :
    ∀ chunk ∈ MessageManager.splitMessage text,
      chunk.length ≤ MessageManager.MAX_MESSAGE_LENGTH ∧ chunk ≠ [] := by
  intro chunk hchunk
  unfold MessageManager.splitMessage at hchunk
  have inv := MessageManager.splitStep_foldl_invariant
    (MessageManager.splitLines text) [] [] h
    (by intro c hc; cases hc) (by simp)
  simp only [ne_eq] at hchunk
  split at hchunk
  next hne =>
    rcases List.mem_append.1 hchunk with hm | hm
    · exact inv.1 chunk hm
    · rcases List.mem_singleton.1 hm with rfl
      exact ⟨inv.2, hne⟩
  next hne => exact inv.1 chunk hchunk

/-- The pagination loop performs at most `101 - page` fetches when started
at `page` (fuel-indexed induction). -/
theorem TokenProvider.fetchPages_count_le (resp : TokenProvider.ResponseSeq)
    (n : Nat) :
    ∀ page m, 101 - page ≤ n →
      (TokenProvider.fetchPages resp page m).2 ≤ 101 - page := by
  induction n with
  | zero =>
    intro page m hle
    rw [TokenProvider.fetchPages]
    have hp : page > 100 := by omega
    simp [hp]
  | succ n ih =>
    intro page m hle
    rw [TokenProvider.fetchPages]
    by_cases hp : page > 100
    · simp [hp]
    · simp only [hp, if_false]
      cases hr : resp page with
      | none => simp; omega
      | some accounts =>
        by_cases ha : accounts = []
        · simp [ha]; omega
        · simp only [ha, if_neg, not_false_iff]
          have hrec := ih (page + 1)
            (accounts.foldl
              (fun acc a => TokenProvider.upsert acc a.owner a.amount) m)
            (by omega)
          omega

/-- Every key of `upsert m o b` is a key of `m` or is `o`. -/
theorem TokenProvider.upsert_keys_subset (o : String) (b : Rat) :
    ∀ m : List (String × Rat), ∀ x ∈ (TokenProvider.upsert m o b).map
      Prod.fst, x ∈ m.map Prod.fst ∨ x = o := by
  intro m
  induction m with
  | nil => simp [TokenProvider.upsert]
  | cons p rest ih =>
    obtain ⟨o', b'⟩ := p
    by_cases h : o' = o
    · intro x hx
      have heq : TokenProvider.upsert ((o', b') :: rest) o b =
          (o', b' + b) :: rest := by simp [TokenProvider.upsert, h]
      rw [heq] at hx
      simp only [List.map_cons, List.mem_cons] at hx ⊢
      tauto
    · intro x hx
      simp only [TokenProvider.upsert, h, if_false, List.map_cons,
        List.mem_cons] at hx ⊢
      rcases hx with rfl | hx
      · exact Or.inl (Or.inl rfl)
      · rcases ih x hx with h1 | h1
        · exact Or.inl (Or.inr h1)
        · exact Or.inr h1

/-- Lemma: `upsert` preserves distinctness of the keys. -/
theorem TokenProvider.upsert_keys_nodup (o : String) (b : Rat) :
    ∀ m : List (String × Rat), (m.map Prod.fst).Nodup →
      ((TokenProvider.upsert m o b).map Prod.fst).Nodup := by
  intro m
  induction m with
  | nil => simp [TokenProvider.upsert]
  | cons p rest ih =>
    obtain ⟨o', b'⟩ := p
    intro h
    simp only [List.map_cons, List.nodup_cons] at h
    by_cases he : o' = o
    · simpa [TokenProvider.upsert, he, List.nodup_cons] using h
    · simp only [TokenProvider.upsert, he, if_false, List.map_cons,
        List.nodup_cons]
      refine ⟨fun hmem => ?_, ih h.2⟩
      rcases TokenProvider.upsert_keys_subset o b rest o' hmem with h1 | h1
      · exact h.1 h1
      · exact he h1

/-- Folding a page of accounts into the map preserves key distinctness. -/
theorem TokenProvider.foldl_upsert_nodup
    (accounts : List TokenProvider.TokenAccount) :
    ∀ m : List (String × Rat), (m.map Prod.fst).Nodup →
      ((accounts.foldl
        (fun acc a => TokenProvider.upsert acc a.owner a.amount) m).map
          Prod.fst).Nodup := by
  induction accounts with
  | nil => intro m h; exact h
  | cons a rest ih =>
    intro m h
    exact ih _ (TokenProvider.upsert_keys_nodup a.owner a.amount m h)

/-- The pagination loop preserves key distinctness of the holder map. -/
theorem TokenProvider.fetchPages_nodup (resp : TokenProvider.ResponseSeq)
    (n : Nat) :
    ∀ page m, 101 - page ≤ n → (m.map Prod.fst).Nodup →
      ((TokenProvider.fetchPages resp page m).1.map Prod.fst).Nodup := by
  induction n with
  | zero =>
    intro page m hle hm
    rw [TokenProvider.fetchPages]
    have hp : page > 100 := by omega
    simpa [hp] using hm
  | succ n ih =>
    intro page m hle hm
    rw [TokenProvider.fetchPages]
    by_cases hp : page > 100
    · simpa [hp] using hm
    · simp only [hp, if_false]
      cases hr : resp page with
      | none => simpa using hm
      | some accounts =>
        by_cases ha : accounts = []
        · simpa [ha] using hm
        · simp only [ha, if_neg, not_false_iff]
          exact ih (page + 1) _ (by omega)
            (TokenProvider.foldl_upsert_nodup accounts m hm)

/-- C10: for every sequence of API responses, the pagination loop of
`fetchHolderList` performs at most 100 page fetches, and the returned list
maps each owner address to at most one entry (the address list has no
duplicates). -/
theorem fetchHolderList_bounded_pages_unique_owners
    (resp : TokenProvider.ResponseSeq) :
    (TokenProvider.fetchHolderList resp).2 ≤ 100 ∧
    ((TokenProvider.fetchHolderList resp).1.map
      TokenProvider.HolderData.address).Nodup := by
  constructor
  · have h := TokenProvider.fetchPages_count_le resp 100 1 [] (by omega)
    simpa [TokenProvider.fetchHolderList] using h
  · have h := TokenProvider.fetchPages_nodup resp 100 1 [] (by omega)
      (by simp)
    simpa [TokenProvider.fetchHolderList, List.map_map, Function.comp]
      using h

/-- Witness for C9 on the concrete text `"hello\nworld"`. -/
theorem splitMessage_chunks_bounded_nonempty_witness :
    (∀ line ∈ MessageManager.splitLines
        ['h', 'e', 'l', 'l', 'o', '\n', 'w', 'o', 'r', 'l', 'd'],
      line.length ≤ MessageManager.MAX_MESSAGE_LENGTH) ∧
    ∀ chunk ∈ MessageManager.splitMessage
        ['h', 'e', 'l', 'l', 'o', '\n', 'w', 'o', 'r', 'l', 'd'],
      chunk.length ≤ MessageManager.MAX_MESSAGE_LENGTH ∧ chunk ≠ [] :=
  ⟨by decide,
    splitMessage_chunks_bounded_nonempty
      ['h', 'e', 'l', 'l', 'o', '\n', 'w', 'o', 'r', 'l', 'd'] (by decide)⟩
